import Mathlib

/-!
go-hyperliquid: order builders, payload assembly and order submission

A shallow embedding of `exchange.go` and `exchange_orders.go`.

* Go values of type `float64` are `Float64` below; the only float operation the two files
  perform themselves is the comparison `szi < 0`.
* Go functions returning `(T, error)` return `Except Error T` when the error return always
  comes with the zero value of `T`; `BulkOrders`, which can return a response together with
  an error, returns the pair.
* Code the two files call but do not contain (`floatToWire`, `parseFloat`, `abs`,
  `Info.NameToAsset`, `Info.UserState`, `Exchange.SlippagePrice`, `SignL1Action`,
  `Client.post`, `json.Unmarshal`, `time.Now`, the constants `TifIoc`, `GroupingNA`,
  `MainnetAPIURL`) is a field of `Env`; the theorems quantify over `Env`, and `modelEnv` is
  one concrete choice on which the definitions are run.
* Calls that leave the process (and the call of the order builder) are recorded, in order,
  in a list of `Event`s returned next to the result.
* The `fmt.Printf("DEBUG: ...")` lines write to standard output only and are not embedded.
* `exchange_orders.go` carries an unresolved merge conflict inside `newModifyOrderAction`;
  both sides are embedded, selected by a `MergeSide`. The assignments to `orderTypeMap`
  (a variable that is declared nowhere) cannot reach any returned value and are left out.
-/

namespace Hyperliquid

/-! ## Values -/

/-- IEEE-754 binary64 value: not-a-number, an infinity, or `(-1)^neg * m * 2^e`. -/
inductive Float64 where
  | nan
  | inf (neg : Bool)
  | fin (neg : Bool) (m : Nat) (e : Int)
  deriving DecidableEq, Repr

/-- Go comparison `x < 0` on `float64`: false for NaN and for both zeros. -/
def Float64.ltZero : Float64 → Bool
  | .nan => false
  | .inf neg => neg
  | .fin neg m _ => neg && m != 0

/-- Go error values. Each constructor is one `fmt.Errorf` statement of the two files, with
the arguments of its format string; `external` is an error returned by code outside them. -/
inductive Error where
  | external (msg : String)
  /-- Statement `fmt.Errorf("failed to wire price for order %d: %w", i, err)` -/
  | wirePriceForOrder (i : Nat) (err : Error)
  /-- Statement `fmt.Errorf("failed to wire size for order %d: %w", i, err)` -/
  | wireSizeForOrder (i : Nat) (err : Error)
  /-- Statement `fmt.Errorf("failed to wire triggerPx for order %d: %w", i, err)` -/
  | wireTriggerPxForOrder (i : Nat) (err : Error)
  /-- Statement `fmt.Errorf("failed to create order: %s", resp.Err)` -/
  | failedToCreateOrder (respErr : String)
  /-- Statement `fmt.Errorf("no status for order: %s", resp.Err)` -/
  | noStatusForOrder (respErr : String)
  /-- Statement `fmt.Errorf("%s", *s.Error)` -/
  | statusError (s : String)
  /-- Statement `fmt.Errorf("failed to wire price: %w", err)` -/
  | wirePrice (err : Error)
  /-- Statement `fmt.Errorf("failed to wire size: %w", err)` -/
  | wireSize (err : Error)
  /-- Statement `fmt.Errorf("failed to wire triggerPx: %w", err)` (HEAD side of the conflict) -/
  | wireTriggerPx (err : Error)
  /-- Statement `fmt.Errorf("failed to wire triggerPx for modify: %w", err)` (incoming side) -/
  | wireTriggerPxForModify (err : Error)
  /-- Statement `fmt.Errorf("failed to create modify request %d: %w", i, err)` -/
  | createModifyRequest (i : Nat) (err : Error)
  /-- Statement `fmt.Errorf("position not found for coin: %s", coin)` -/
  | positionNotFound (coin : String)
  deriving DecidableEq, Repr

/-- The text of an error (what the Go method `Error()` returns): the format string with its
arguments filled in. -/
def Error.message : Error → String
  | .external msg => msg
  | .wirePriceForOrder i err =>
      "failed to wire price for order " ++ toString i ++ ": " ++ err.message
  | .wireSizeForOrder i err =>
      "failed to wire size for order " ++ toString i ++ ": " ++ err.message
  | .wireTriggerPxForOrder i err =>
      "failed to wire triggerPx for order " ++ toString i ++ ": " ++ err.message
  | .failedToCreateOrder respErr => "failed to create order: " ++ respErr
  | .noStatusForOrder respErr => "no status for order: " ++ respErr
  | .statusError s => s
  | .wirePrice err => "failed to wire price: " ++ err.message
  | .wireSize err => "failed to wire size: " ++ err.message
  | .wireTriggerPx err => "failed to wire triggerPx: " ++ err.message
  | .wireTriggerPxForModify err => "failed to wire triggerPx for modify: " ++ err.message
  | .createModifyRequest i err =>
      "failed to create modify request " ++ toString i ++ ": " ++ err.message
  | .positionNotFound coin => "position not found for coin: " ++ coin

/-- A Go value of static type `any`, as far as the two files inspect one. -/
inductive AnyValue where
  | nil
  | string (s : String)
  | bool (b : Bool)
  | int64 (n : Int)
  | float64 (f : Float64)
  deriving DecidableEq, Repr

/-- A Go `map[string]V`: keys are unique, `set` overwrites. -/
abbrev GoMap (V : Type) := List (String × V)

/-- Index expression `m[k]` in its two-value form. -/
def GoMap.get? {V : Type} (m : GoMap V) (k : String) : Option V :=
  match m with
  | [] => none
  | (k1, v) :: rest => if k1 = k then some v else GoMap.get? rest k

/-- Assignment `m[k] = v`. -/
def GoMap.set {V : Type} (m : GoMap V) (k : String) (v : V) : GoMap V :=
  match m with
  | [] => [(k, v)]
  | (k1, v1) :: rest => if k1 = k then (k1, v) :: rest else (k1, v1) :: GoMap.set rest k v

/-- Index expression `m[k]` on a `map[string]any`: the nil interface when `k` is absent. -/
def GoMap.index (m : GoMap AnyValue) (k : String) : AnyValue :=
  (GoMap.get? m k).getD AnyValue.nil

/-! ## Types used by the two files (declared elsewhere in the package) -/

abbrev Tif := String
abbrev Tpsl := String
abbrev Grouping := String

structure LimitOrderType where
  Tif : Tif
  deriving DecidableEq, Repr

structure TriggerOrderType where
  TriggerPx : Float64
  IsMarket : Bool
  Tpsl : Tpsl
  deriving DecidableEq, Repr

/-- Both fields are pointers in Go: each may be nil independently of the other. -/
structure OrderType where
  Limit : Option LimitOrderType
  Trigger : Option TriggerOrderType
  deriving DecidableEq, Repr

structure CreateOrderRequest where
  Coin : String
  IsBuy : Bool
  Price : Float64
  Size : Float64
  ReduceOnly : Bool
  OrderType : OrderType
  ClientOrderID : Option String
  deriving DecidableEq, Repr

structure LimitWire where
  Tif : String
  deriving DecidableEq, Repr

structure TriggerWire where
  IsMarket : Bool
  Tpsl : Tpsl
  TriggerPx : String
  deriving DecidableEq, Repr

structure OrderTypeWire where
  Limit : Option LimitWire
  Trigger : Option TriggerWire
  deriving DecidableEq, Repr

structure OrderWire where
  Asset : Int
  IsBuy : Bool
  LimitPx : String
  Size : String
  ReduceOnly : Bool
  OrderType : OrderTypeWire
  Cloid : Option String
  deriving DecidableEq, Repr

/-- A builder-fee record; the two files only pass the pointer along. -/
structure BuilderInfo where
  Builder : String
  Fee : Int
  deriving DecidableEq, Repr

structure OrderAction where
  Type_ : String
  Orders : List OrderWire
  Grouping : String
  Builder : Option BuilderInfo
  deriving DecidableEq, Repr

structure ModifyOrderRequest where
  Oid : AnyValue
  Order : CreateOrderRequest
  deriving DecidableEq, Repr

structure ModifyAction where
  Type_ : String
  Oid : AnyValue
  Order : OrderWire
  deriving DecidableEq, Repr

structure BatchModifyAction where
  Type_ : String
  Modifies : List ModifyAction
  deriving DecidableEq, Repr

structure OrderStatusResting where
  Oid : Int
  ClientID : Option String
  Status : String
  deriving DecidableEq, Repr

structure OrderStatusFilled where
  TotalSz : String
  AvgPx : String
  Oid : Int
  deriving DecidableEq, Repr

structure OrderStatus where
  Resting : Option OrderStatusResting
  Filled : Option OrderStatusFilled
  Error : Option String
  deriving DecidableEq, Repr

/-- The zero value `OrderStatus{}`. -/
def OrderStatus.zero : OrderStatus := ⟨none, none, none⟩

structure OrderResponse where
  Statuses : List OrderStatus
  deriving DecidableEq, Repr

/-- The fields of `APIResponse[T]` the two files read. -/
structure APIResponse (T : Type) where
  Ok : Bool
  Data : T
  Err : String
  deriving DecidableEq, Repr

structure Position where
  Coin : String
  Szi : String
  deriving DecidableEq, Repr

structure AssetPosition where
  Position : Position
  deriving DecidableEq, Repr

structure UserState where
  AssetPositions : List AssetPosition
  deriving DecidableEq, Repr

structure SignatureResult where
  R : String
  S : String
  V : Int
  deriving DecidableEq, Repr

/-- The dynamic type of the `action any` argument of `executeAction` and `postAction`. -/
inductive Action where
  | OrderAction (a : OrderAction)
  | ModifyAction (a : ModifyAction)
  | BatchModifyAction (a : BatchModifyAction)
  | Map (m : GoMap AnyValue)
  | Other (goType : String)
  deriving DecidableEq, Repr

structure Client where
  baseURL : String
  deriving DecidableEq, Repr

/-- Modelled from the spec: the type `Info` is declared outside the two files; of its state
only the AssetTable, a mapping from coin symbol to integer asset index, is kept. -/
structure Info where
  assetTable : GoMap Int
  deriving DecidableEq, Repr

structure Exchange where
  client : Client
  privateKey : Nat
  vault : String
  accountAddr : String
  info : Info
  expiresAfter : Option Int
  deriving DecidableEq, Repr

/-- A value of the transport payload `map[string]any` built by `postAction`. -/
inductive PayloadValue where
  | action (a : Action)
  | int64 (n : Int)
  | signature (s : SignatureResult)
  | string (s : String)
  | nil
  deriving DecidableEq, Repr

abbrev Payload := GoMap PayloadValue

/-- Calls observable from outside, in the order they happen. -/
inductive Event where
  | UserState (address : String)
  | SlippagePrice (name : String) (isBuy : Bool) (slippage : Float64) (px : Option Float64)
  | newCreateOrderAction (orders : List CreateOrderRequest) (builder : Option BuilderInfo)
  | SignL1Action (action : Action) (vault : String) (timestamp : Int)
      (expiresAfter : Option Int) (isMainnet : Bool)
  | post (path : String) (payload : Payload)
  | Unmarshal (body : String)
  deriving DecidableEq, Repr

/-- Everything the two files call and do not define. An error coming back from one of these
is given by its text; the embedding turns it into `Error.external`. -/
structure Env where
  MainnetAPIURL : String
  TifIoc : Tif
  GroupingNA : Grouping
  floatToWire : Float64 → Except String String
  parseFloat : String → Float64
  abs : Float64 → Float64
  /-- Method `(*Info).NameToAsset`: one `int` result, no error result. -/
  NameToAsset : Info → String → Int
  UserState : Info → String → Except String UserState
  SlippagePrice : Exchange → String → Bool → Float64 → Option Float64 → Except String Float64
  /-- The reading of `time.Now().UnixMilli()` taken by `executeAction`. -/
  now : Int
  SignL1Action : Nat → Action → String → Int → Option Int → Bool → Except String SignatureResult
  post : Client → String → Payload → Except String String
  /-- Call `json.Unmarshal(resp, &result)` with `result` a nil `*APIResponse[OrderResponse]`:
  the value of `result` afterwards (nil for the JSON text `null`). -/
  Unmarshal : String → Except String (Option (APIResponse OrderResponse))

/-- Which side of the conflict in `newModifyOrderAction` is kept. -/
inductive MergeSide where
  | head
  | incoming
  deriving DecidableEq, Repr

deriving instance DecidableEq for Except

/-- A Go call either returns or stops with a run-time panic. -/
inductive Run (α : Type) where
  | ret (a : α)
  | panic
  deriving DecidableEq, Repr

/-! ## exchange_orders.go: builders -/

/-- Body of the `for i, order := range orders` loop of `newCreateOrderAction`: the wire
order of request `i`, or the error the function returns from inside the loop. -/
def newCreateOrderAction.body (env : Env) (e : Exchange) (i : Nat)
    (order : CreateOrderRequest) : Except Error OrderWire :=
  match env.floatToWire order.Price with
  | .error err => .error (.wirePriceForOrder i (.external err))
  | .ok priceWire =>
    match env.floatToWire order.Size with
    | .error err => .error (.wireSizeForOrder i (.external err))
    | .ok sizeWire =>
      let orderTypeWire : Except Error OrderTypeWire :=
        match order.OrderType.Limit with
        | some limit => .ok { Limit := some { Tif := limit.Tif }, Trigger := none }
        | none =>
          match order.OrderType.Trigger with
          | some trigger =>
            match env.floatToWire trigger.TriggerPx with
            | .error err => .error (.wireTriggerPxForOrder i (.external err))
            | .ok triggerPxWire =>
              .ok { Limit := none,
                    Trigger := some { IsMarket := trigger.IsMarket,
                                      Tpsl := trigger.Tpsl,
                                      TriggerPx := triggerPxWire } }
          | none => .ok { Limit := none, Trigger := none }
      match orderTypeWire with
      | .error err => .error err
      | .ok orderTypeWire =>
        .ok { Asset := env.NameToAsset e.info order.Coin,
              IsBuy := order.IsBuy,
              LimitPx := priceWire,
              Size := sizeWire,
              ReduceOnly := order.ReduceOnly,
              OrderType := orderTypeWire,
              Cloid := order.ClientOrderID }

/-- The loop of `newCreateOrderAction` from index `i` on: the slots `orderRequests[i:]`. -/
def newCreateOrderAction.loop (env : Env) (e : Exchange) :
    Nat → List CreateOrderRequest → Except Error (List OrderWire)
  | _, [] => .ok []
  | i, order :: rest =>
    match newCreateOrderAction.body env e i order with
    | .error err => .error err
    | .ok orderWire =>
      match newCreateOrderAction.loop env e (i + 1) rest with
      | .error err => .error err
      | .ok wires => .ok (orderWire :: wires)

def newCreateOrderAction (env : Env) (e : Exchange) (orders : List CreateOrderRequest)
    (info : Option BuilderInfo) : Except Error OrderAction :=
  match newCreateOrderAction.loop env e 0 orders with
  | .error err => .error err
  | .ok orderRequests =>
    .ok { Type_ := "order",
          Orders := orderRequests,
          Grouping := env.GroupingNA,
          Builder := info }

def newModifyOrderAction (env : Env) (side : MergeSide) (e : Exchange)
    (modifyRequest : ModifyOrderRequest) : Except Error ModifyAction :=
  match env.floatToWire modifyRequest.Order.Price with
  | .error err => .error (.wirePrice (.external err))
  | .ok priceWire =>
    match env.floatToWire modifyRequest.Order.Size with
    | .error err => .error (.wireSize (.external err))
    | .ok sizeWire =>
      let orderTypeWire : Except Error OrderTypeWire :=
        match modifyRequest.Order.OrderType.Limit with
        | some limit => .ok { Limit := some { Tif := limit.Tif }, Trigger := none }
        | none =>
          match modifyRequest.Order.OrderType.Trigger with
          | some trigger =>
            match env.floatToWire trigger.TriggerPx, side with
            | .error err, .head => .error (.wireTriggerPx (.external err))
            | .error err, .incoming => .error (.wireTriggerPxForModify (.external err))
            | .ok triggerPxWire, .head =>
              .ok { Limit := none,
                    Trigger := some { IsMarket := trigger.IsMarket,
                                      Tpsl := trigger.Tpsl,
                                      TriggerPx := triggerPxWire } }
            | .ok _, .incoming => .ok { Limit := none, Trigger := none }
          | none => .ok { Limit := none, Trigger := none }
      match orderTypeWire with
      | .error err => .error err
      | .ok orderTypeWire =>
        .ok { Type_ := "modify",
              Oid := modifyRequest.Oid,
              Order := { Asset := env.NameToAsset e.info modifyRequest.Order.Coin,
                         IsBuy := modifyRequest.Order.IsBuy,
                         LimitPx := priceWire,
                         Size := sizeWire,
                         ReduceOnly := modifyRequest.Order.ReduceOnly,
                         OrderType := orderTypeWire,
                         Cloid := modifyRequest.Order.ClientOrderID } }

/-- The loop of `newModifyOrdersAction` from index `i` on: the slots `modifies[i:]`. -/
def newModifyOrdersAction.loop (env : Env) (side : MergeSide) (e : Exchange) :
    Nat → List ModifyOrderRequest → Except Error (List ModifyAction)
  | _, [] => .ok []
  | i, req :: rest =>
    match newModifyOrderAction env side e req with
    | .error err => .error (.createModifyRequest i err)
    | .ok modify =>
      match newModifyOrdersAction.loop env side e (i + 1) rest with
      | .error err => .error err
      | .ok modifies => .ok (modify :: modifies)

def newModifyOrdersAction (env : Env) (side : MergeSide) (e : Exchange)
    (modifyRequests : List ModifyOrderRequest) : Except Error BatchModifyAction :=
  match newModifyOrdersAction.loop env side e 0 modifyRequests with
  | .error err => .error err
  | .ok modifies => .ok { Type_ := "batchModify", Modifies := modifies }

/-! ## exchange.go -/

/-- The loop `for _, order := range actionStruct.Orders` of `postAction` that computes
`hasTriggerOrder`. -/
def hasTriggerOrder (actionStruct : OrderAction) : Bool :=
  actionStruct.Orders.any fun order => order.OrderType.Trigger.isSome

/-- The map `payload` of `postAction` at the moment it is handed to `e.client.post`. -/
def postAction.payload (e : Exchange) (action : Action) (signature : SignatureResult)
    (nonce : Int) : Payload :=
  let payload : Payload :=
    [("action", .action action), ("nonce", .int64 nonce), ("signature", .signature signature)]
  let payload : Payload :=
    match action with
    | .Map actionMap =>
      if GoMap.index actionMap "type" ≠ AnyValue.string "usdClassTransfer" then
        if e.vault ≠ "" then GoMap.set payload "vaultAddress" (.string e.vault)
        else payload
      else GoMap.set payload "vaultAddress" .nil
    | _ =>
      if e.vault ≠ "" then GoMap.set payload "vaultAddress" (.string e.vault)
      else
        match action with
        | .OrderAction actionStruct =>
          if hasTriggerOrder actionStruct then payload else payload
        | _ => payload
  match e.expiresAfter with
  | some expiresAfter => GoMap.set payload "expiresAfter" (.int64 expiresAfter)
  | none => payload

def postAction (env : Env) (e : Exchange) (action : Action) (signature : SignatureResult)
    (nonce : Int) : Except Error String × List Event :=
  let payload := postAction.payload e action signature nonce
  match env.post e.client "/exchange" payload with
  | .error err => (.error (.external err), [Event.post "/exchange" payload])
  | .ok resp => (.ok resp, [Event.post "/exchange" payload])

/-- Method `executeAction` as `BulkOrders` calls it, with `result` the address of a nil
`*APIResponse[OrderResponse]`: the value stored there when the call returns a nil error. -/
def executeAction (env : Env) (e : Exchange) (action : Action) :
    Except Error (Option (APIResponse OrderResponse)) × List Event :=
  let timestamp := env.now
  let isMainnet : Bool := e.client.baseURL == env.MainnetAPIURL
  let signed := Event.SignL1Action action e.vault timestamp e.expiresAfter isMainnet
  match env.SignL1Action e.privateKey action e.vault timestamp e.expiresAfter isMainnet with
  | .error err => (.error (.external err), [signed])
  | .ok sig =>
    match postAction env e action sig timestamp with
    | (.error err, events) => (.error err, signed :: events)
    | (.ok resp, events) =>
      match env.Unmarshal resp with
      | .error err => (.error (.external err), signed :: events ++ [Event.Unmarshal resp])
      | .ok result => (.ok result, signed :: events ++ [Event.Unmarshal resp])

/-! ## exchange_orders.go: submission -/

/-- The loop `for _, s := range result.Data.Statuses` of `BulkOrders`: the string of the
first status whose `Error` is set. -/
def BulkOrders.firstError : List OrderStatus → Option String
  | [] => none
  | s :: rest =>
    match s.Error with
    | some msg => some msg
    | none => BulkOrders.firstError rest

/-- The two results `(result, err)` of the Go method, then the events. -/
def BulkOrders (env : Env) (e : Exchange) (orders : List CreateOrderRequest)
    (builder : Option BuilderInfo) :
    (Option (APIResponse OrderResponse) × Option Error) × List Event :=
  let built := Event.newCreateOrderAction orders builder
  match newCreateOrderAction env e orders builder with
  | .error err => ((none, some err), [built])
  | .ok action =>
    match executeAction env e (.OrderAction action) with
    | (.error err, events) => ((none, some err), built :: events)
    | (.ok result, events) =>
      match result with
      | some r =>
        match BulkOrders.firstError r.Data.Statuses with
        | some msg => ((some r, some (.statusError msg)), built :: events)
        | none => ((some r, none), built :: events)
      | none => ((none, none), built :: events)

/-- Method `Order`. An error return carries the zero `OrderStatus`; reading a field through
the nil `resp` is a run-time panic. -/
def Order (env : Env) (e : Exchange) (req : CreateOrderRequest)
    (builder : Option BuilderInfo) : Run (Except Error OrderStatus) × List Event :=
  match BulkOrders env e [req] builder with
  | ((_, some err), events) => (.ret (.error err), events)
  | ((none, none), events) => (.panic, events)
  | ((some resp, none), events) =>
    if !resp.Ok then (.ret (.error (.failedToCreateOrder resp.Err)), events)
    else
      match resp.Data.Statuses with
      | [] => (.ret (.error (.noStatusForOrder resp.Err)), events)
      | status :: _ => (.ret (.ok status), events)

def MarketOpen (env : Env) (e : Exchange) (name : String) (isBuy : Bool) (sz : Float64)
    (px : Option Float64) (slippage : Float64) (cloid : Option String)
    (builder : Option BuilderInfo) : Run (Except Error OrderStatus) × List Event :=
  let asked := Event.SlippagePrice name isBuy slippage px
  match env.SlippagePrice e name isBuy slippage px with
  | .error err => (.ret (.error (.external err)), [asked])
  | .ok slippagePrice =>
    let orderType : OrderType := { Limit := some { Tif := env.TifIoc }, Trigger := none }
    let (res, events) :=
      Order env e { Coin := name,
                    IsBuy := isBuy,
                    Size := sz,
                    Price := slippagePrice,
                    OrderType := orderType,
                    ReduceOnly := false,
                    ClientOrderID := cloid } builder
    (res, asked :: events)

/-- The loop `for _, assetPos := range userState.AssetPositions` of `MarketClose` together
with the statement after it. -/
def MarketClose.loop (env : Env) (e : Exchange) (coin : String) (sz : Option Float64)
    (px : Option Float64) (slippage : Float64) (cloid : Option String)
    (builder : Option BuilderInfo) :
    List AssetPosition → Run (Except Error OrderStatus) × List Event
  | [] => (.ret (.error (.positionNotFound coin)), [])
  | assetPos :: rest =>
    let pos := assetPos.Position
    if coin ≠ pos.Coin then
      MarketClose.loop env e coin sz px slippage cloid builder rest
    else
      let szi := env.parseFloat pos.Szi
      let size : Float64 :=
        match sz with
        | some v => v
        | none => env.abs szi
      let isBuy := szi.ltZero
      let asked := Event.SlippagePrice coin isBuy slippage px
      match env.SlippagePrice e coin isBuy slippage px with
      | .error err => (.ret (.error (.external err)), [asked])
      | .ok slippagePrice =>
        let orderType : OrderType := { Limit := some { Tif := env.TifIoc }, Trigger := none }
        let (res, events) :=
          Order env e { Coin := coin,
                        IsBuy := isBuy,
                        Size := size,
                        Price := slippagePrice,
                        OrderType := orderType,
                        ReduceOnly := true,
                        ClientOrderID := cloid } builder
        (res, asked :: events)

def MarketClose (env : Env) (e : Exchange) (coin : String) (sz : Option Float64)
    (px : Option Float64) (slippage : Float64) (cloid : Option String)
    (builder : Option BuilderInfo) : Run (Except Error OrderStatus) × List Event :=
  let address := if e.accountAddr = "" then e.vault else e.accountAddr
  match env.UserState e.info address with
  | .error err => (.ret (.error (.external err)), [Event.UserState address])
  | .ok userState =>
    let (res, events) :=
      MarketClose.loop env e coin sz px slippage cloid builder userState.AssetPositions
    (res, Event.UserState address :: events)

/-! ## A concrete environment

One choice for the fields of `Env`, used to run the definitions above on concrete inputs. -/

/-- Decimal digits of `n * 10^(-k)` with the point placed and trailing zeros trimmed. -/
def decimalText (n k : Nat) : String :=
  let digits := (Nat.toDigits 10 n)
  let digits := List.replicate (k + 1 - digits.length) (Char.ofNat 48) ++ digits
  let whole := digits.take (digits.length - k)
  let frac := ((digits.drop (digits.length - k)).reverse.dropWhile (· = Char.ofNat 48)).reverse
  if frac = [] then String.mk whole else String.mk (whole ++ Char.ofNat 46 :: frac)

/-- Modelled from the spec: `floatToWire` is declared outside the two files. Section 4.1:
the decimal text of the number, never in scientific form, trailing zeros after the point
trimmed, at least one digit before the point; NaN and the infinities are rejected. The
magnitude limit of section 4.1 has no number in the spec and is left out. -/
def floatToWireModel : Float64 → Except String String
  | .nan => .error "float_to_wire: NaN"
  | .inf _ => .error "float_to_wire: Inf"
  | .fin neg m e =>
    let text :=
      match e with
      | .ofNat k => decimalText (m * 2 ^ k) 0
      | .negSucc k => decimalText (m * 5 ^ (k + 1)) (k + 1)
    .ok (if neg && m != 0 then "-" ++ text else text)

/-- Value of a string of decimal digits; `none` at the first other character. -/
def digitsValue : List Char → Nat → Option Nat
  | [], acc => some acc
  | c :: rest, acc =>
    if 48 ≤ c.toNat ∧ c.toNat ≤ 57 then digitsValue rest (acc * 10 + (c.toNat - 48)) else none

/-- A `parseFloat` for integer texts: `0` for any other text. -/
def parseFloatModel (s : String) : Float64 :=
  match s.data with
  | [] => .fin false 0 0
  | c :: rest =>
    if c = Char.ofNat 45 then
      match digitsValue rest 0 with
      | some n => .fin true n 0
      | none => .fin false 0 0
    else
      match digitsValue (c :: rest) 0 with
      | some n => .fin false n 0
      | none => .fin false 0 0

/-- Absolute value of a `float64`. -/
def absModel : Float64 → Float64
  | .nan => .nan
  | .inf _ => .inf false
  | .fin _ m e => .fin false m e

/-- The environment: the table lookup of `NameToAsset` is a Go map index expression (the
zero value `0` for a missing key); the account state is `state`; `SlippagePrice` answers
the caller's `px` and fails without one; signing succeeds; the transport answers `body`,
which decodes to nil when it is the JSON text `null` and to `decoded` otherwise. -/
def modelEnv (state : UserState) (body : String) (decoded : APIResponse OrderResponse) :
    Env where
  MainnetAPIURL := "https://api.hyperliquid.xyz"
  TifIoc := "Ioc"
  GroupingNA := "na"
  floatToWire := floatToWireModel
  parseFloat := parseFloatModel
  abs := absModel
  NameToAsset := fun info name => (GoMap.get? info.assetTable name).getD 0
  UserState := fun _ _ => .ok state
  SlippagePrice := fun _ _ _ _ px =>
    match px with
    | some p => .ok p
    | none => .error "no mid price"
  now := 1700000000000
  SignL1Action := fun _ _ _ _ _ _ => .ok { R := "0x01", S := "0x02", V := 27 }
  post := fun _ _ _ => .ok body
  Unmarshal := fun resp => if resp = "null" then .ok none else .ok (some decoded)

/-- A client for the stub table `{ "BTC": 0, "ETH": 1 }`, main account, no expiration. -/
def modelExchange : Exchange where
  client := { baseURL := "https://api.hyperliquid.xyz" }
  privateKey := 1
  vault := ""
  accountAddr := "0xabc"
  info := { assetTable := [("BTC", 0), ("ETH", 1)] }
  expiresAfter := none

/-- A limit order request (good-till-cancel buy) for `coin` at `price`. -/
def limitRequest (coin : String) (price : Float64) : CreateOrderRequest where
  Coin := coin
  IsBuy := true
  Price := price
  Size := .fin false 1 0
  ReduceOnly := false
  OrderType := { Limit := some { Tif := "Gtc" }, Trigger := none }
  ClientOrderID := none

/-- The number `1`. -/
def one : Float64 := .fin false 1 0

/-- An environment whose transport answers the JSON text `null`. -/
def nullEnv : Env :=
  modelEnv { AssetPositions := [] } "null" { Ok := true, Data := { Statuses := [] }, Err := "" }

/-- Three requests, the second with price NaN. -/
def threeOrders : List CreateOrderRequest :=
  [limitRequest "BTC" one, limitRequest "BTC" .nan, limitRequest "ETH" one]

/-- A request with both `Limit` and `Trigger` set; the trigger price is NaN. -/
def bothRequest : CreateOrderRequest where
  Coin := "ETH"
  IsBuy := false
  Price := .fin false 130001 (-1)
  Size := .fin false 1 (-2)
  ReduceOnly := false
  OrderType := { Limit := some { Tif := "Gtc" },
                 Trigger := some { TriggerPx := .nan, IsMarket := true, Tpsl := "tp" } }
  ClientOrderID := some "0x1234"

/-- A per-order status `filled`. -/
def filledStatus : OrderStatus where
  Resting := none
  Filled := some { TotalSz := "1", AvgPx := "65000.5", Oid := 77 }
  Error := none

/-- A per-order status `error`. -/
def errorStatus (msg : String) : OrderStatus where
  Resting := none
  Filled := none
  Error := some msg

/-- An account state with an ETH position and two BTC positions, the first one short. -/
def threePositions : UserState where
  AssetPositions :=
    [{ Position := { Coin := "ETH", Szi := "2" } },
     { Position := { Coin := "BTC", Szi := "-3" } },
     { Position := { Coin := "BTC", Szi := "5" } }]

/-- A response to a batch of two orders in which the order at index `failing` (0 or 1) is
rejected with `msg` and the other one is filled. -/
def rejectedAt (failing : Nat) (msg : String) : APIResponse OrderResponse where
  Ok := true
  Data := { Statuses := if failing = 0 then [errorStatus msg, filledStatus]
                        else [filledStatus, errorStatus msg] }
  Err := ""

/-! ## Notions the statements use -/

/-- The usdClassTransfer action, as `postAction` recognises it: a `map[string]any` whose
entry `"type"` is the string `"usdClassTransfer"`. -/
def Action.isUsdClassTransfer : Action → Bool
  | .Map actionMap => GoMap.index actionMap "type" == AnyValue.string "usdClassTransfer"
  | _ => false

/-- The action is one of the struct types, not a `map[string]any`. -/
def Action.isStruct : Action → Bool
  | .Map _ => false
  | _ => true

/-- Predicate saying that `floatToWire` returns an error on `x`. -/
def Env.wireFails (env : Env) (x : Float64) : Bool :=
  match env.floatToWire x with
  | .ok _ => false
  | .error _ => true

/-- The request has a price or a size that `floatToWire` rejects, or it is a trigger order
(no `Limit`, a `Trigger`) with such a trigger price. -/
def Env.rejects (env : Env) (order : CreateOrderRequest) : Bool :=
  env.wireFails order.Price || env.wireFails order.Size ||
    (order.OrderType.Limit.isNone &&
      match order.OrderType.Trigger with
      | some trigger => env.wireFails trigger.TriggerPx
      | none => false)

/-- Test for the error made by the last statement of `MarketClose`, for any coin. -/
def Error.isPositionNotFound : Error → Bool
  | .positionNotFound _ => true
  | _ => false

/-- The address whose account state `MarketClose` asks for. -/
def Exchange.closeAddress (e : Exchange) : String :=
  if e.accountAddr = "" then e.vault else e.accountAddr

/-- The keys of a Go map. -/
def GoMap.keys {V : Type} (m : GoMap V) : List String :=
  m.map Prod.fst

/-! ## Payload assembly (`postAction`) -/

/-- The payload of `postAction` written out: the three fixed entries, then the vault entry
(if any), then the expiration entry (if any). -/
theorem postAction_payload_eq (e : Exchange) (action : Action) (signature : SignatureResult)
    (nonce : Int) :
    postAction.payload e action signature nonce =
      [("action", .action action), ("nonce", .int64 nonce), ("signature", .signature signature)]
      ++ (if action.isUsdClassTransfer then [("vaultAddress", PayloadValue.nil)]
          else if e.vault ≠ "" then [("vaultAddress", PayloadValue.string e.vault)] else [])
      ++ (match e.expiresAfter with
          | some t => [("expiresAfter", PayloadValue.int64 t)]
          | none => []) := by
  unfold postAction.payload
  cases action <;> cases hx : e.expiresAfter <;>
    simp only [Action.isUsdClassTransfer] <;>
    split_ifs <;> simp_all [GoMap.set]

/-- The one call `postAction` makes: the payload goes to `/exchange`. -/
theorem postAction_posts (env : Env) (e : Exchange) (action : Action)
    (signature : SignatureResult) (nonce : Int) :
    (postAction env e action signature nonce).2 =
      [Event.post "/exchange" (postAction.payload e action signature nonce)] := by
  unfold postAction
  cases h : env.post e.client "/exchange" (postAction.payload e action signature nonce) <;>
    simp [h]

/-- C1: for every action, signature, nonce and vault, the payload of `postAction` follows one
vault rule, whether the action is a struct or a map: for the usdClassTransfer action the key
`"vaultAddress"` is present with the null value; otherwise it is present, with the vault as
value, exactly when the vault is non-empty, and absent when the vault is empty. The keys of
the payload are fixed by that rule and the expiration alone, so two `OrderAction`s, with or
without trigger orders, get the same keys. -/
theorem C1_postAction_vault_rule (e : Exchange) (action : Action)
    (signature : SignatureResult) (nonce : Int) :
    GoMap.get? (postAction.payload e action signature nonce) "vaultAddress" =
        (if action.isUsdClassTransfer then some PayloadValue.nil
         else if e.vault ≠ "" then some (PayloadValue.string e.vault) else none)
    ∧ GoMap.keys (postAction.payload e action signature nonce) =
        ["action", "nonce", "signature"]
        ++ (if action.isUsdClassTransfer ∨ e.vault ≠ "" then ["vaultAddress"] else [])
        ++ (if e.expiresAfter.isSome then ["expiresAfter"] else [])
    ∧ (action.isStruct = true → action.isUsdClassTransfer = false)
    ∧ ∀ a b : OrderAction,
        GoMap.keys (postAction.payload e (.OrderAction a) signature nonce) =
          GoMap.keys (postAction.payload e (.OrderAction b) signature nonce) := by
  refine ⟨?_, ?_, ?_, ?_⟩
  · rw [postAction_payload_eq]
    cases hx : e.expiresAfter <;> split_ifs <;> simp [GoMap.get?]
  · rw [postAction_payload_eq]
    cases hx : e.expiresAfter <;> split_ifs <;> simp_all [GoMap.keys]
  · cases action <;> simp [Action.isStruct, Action.isUsdClassTransfer]
  · intro a b
    rw [postAction_payload_eq, postAction_payload_eq]
    cases hx : e.expiresAfter <;> split_ifs <;>
      simp_all [GoMap.keys, Action.isUsdClassTransfer]

/-- C8: for every action, signature and nonce, the payload of `postAction` has the key
`"expiresAfter"` if and only if the exchange has an expiration configured, with exactly the
configured timestamp as value; the keys `"action"`, `"nonce"` and `"signature"` are always
present with the values passed in. -/
theorem C8_postAction_expiresAfter (e : Exchange) (action : Action)
    (signature : SignatureResult) (nonce : Int) :
    ((GoMap.get? (postAction.payload e action signature nonce) "expiresAfter").isSome
        ↔ e.expiresAfter.isSome)
    ∧ GoMap.get? (postAction.payload e action signature nonce) "expiresAfter" =
        e.expiresAfter.map PayloadValue.int64
    ∧ GoMap.get? (postAction.payload e action signature nonce) "action" =
        some (PayloadValue.action action)
    ∧ GoMap.get? (postAction.payload e action signature nonce) "nonce" =
        some (PayloadValue.int64 nonce)
    ∧ GoMap.get? (postAction.payload e action signature nonce) "signature" =
        some (PayloadValue.signature signature) := by
  rw [postAction_payload_eq]
  cases hx : e.expiresAfter <;> split_ifs <;> simp [GoMap.get?]

/-! ## Builders -/

/-- What a successful loop body returns: every field of the wire order. -/
theorem newCreateOrderAction_body_ok {env : Env} {e : Exchange} {i : Nat}
    {order : CreateOrderRequest} {w : OrderWire}
    (h : newCreateOrderAction.body env e i order = .ok w) :
    w.Asset = env.NameToAsset e.info order.Coin ∧ w.IsBuy = order.IsBuy
      ∧ env.floatToWire order.Price = .ok w.LimitPx ∧ env.floatToWire order.Size = .ok w.Size
      ∧ w.ReduceOnly = order.ReduceOnly ∧ w.Cloid = order.ClientOrderID
      ∧ (∀ limit, order.OrderType.Limit = some limit →
          w.OrderType = { Limit := some { Tif := limit.Tif }, Trigger := none }) := by
  unfold newCreateOrderAction.body at h
  cases hp : env.floatToWire order.Price with
  | error err => simp [hp] at h
  | ok priceWire =>
    cases hs : env.floatToWire order.Size with
    | error err => simp [hp, hs] at h
    | ok sizeWire =>
      simp only [hp, hs] at h
      cases hl : order.OrderType.Limit with
      | some limit =>
        simp only [hl] at h
        cases h
        simp
      | none =>
        simp only [hl] at h
        cases ht : order.OrderType.Trigger with
        | none =>
          simp only [ht] at h
          cases h
          simp
        | some trigger =>
          simp only [ht] at h
          cases hx : env.floatToWire trigger.TriggerPx with
          | error err => simp [hx] at h
          | ok px =>
            simp only [hx] at h
            cases h
            simp

/-- The loop body succeeds exactly on the requests `floatToWire` does not reject. -/
theorem newCreateOrderAction_body_ok_iff (env : Env) (e : Exchange) (i : Nat)
    (order : CreateOrderRequest) :
    (∃ w, newCreateOrderAction.body env e i order = .ok w) ↔ env.rejects order = false := by
  unfold newCreateOrderAction.body Env.rejects Env.wireFails
  cases hp : env.floatToWire order.Price <;> cases hs : env.floatToWire order.Size <;>
    cases hl : order.OrderType.Limit <;> cases ht : order.OrderType.Trigger <;> simp
  all_goals
    rename_i trigger
    cases hx : env.floatToWire trigger.TriggerPx <;> simp

/-- On a rejected request the loop body returns one of its three errors, each carrying the
index of the request. -/
theorem newCreateOrderAction_body_error (env : Env) (e : Exchange) (i : Nat)
    (order : CreateOrderRequest) (h : env.rejects order = true) :
    ∃ cause, newCreateOrderAction.body env e i order = .error (.wirePriceForOrder i cause)
      ∨ newCreateOrderAction.body env e i order = .error (.wireSizeForOrder i cause)
      ∨ newCreateOrderAction.body env e i order = .error (.wireTriggerPxForOrder i cause) := by
  unfold newCreateOrderAction.body
  unfold Env.rejects Env.wireFails at h
  cases hp : env.floatToWire order.Price with
  | error err => exact ⟨.external err, Or.inl rfl⟩
  | ok priceWire =>
    cases hs : env.floatToWire order.Size with
    | error err => exact ⟨.external err, Or.inr (Or.inl rfl)⟩
    | ok sizeWire =>
      cases hl : order.OrderType.Limit with
      | some limit => simp [hp, hs, hl] at h
      | none =>
        cases ht : order.OrderType.Trigger with
        | none => simp [hp, hs, hl, ht] at h
        | some trigger =>
          cases hx : env.floatToWire trigger.TriggerPx with
          | ok px => simp [hp, hs, hl, ht, hx] at h
          | error err =>
            refine ⟨.external err, Or.inr (Or.inr ?_)⟩
            simp [hx]

/-- A successful loop body does not depend on the index. -/
theorem newCreateOrderAction_body_index {env : Env} {e : Exchange} {i : Nat}
    {order : CreateOrderRequest} {w : OrderWire}
    (h : newCreateOrderAction.body env e i order = .ok w) (j : Nat) :
    newCreateOrderAction.body env e j order = .ok w := by
  unfold newCreateOrderAction.body at h ⊢
  cases hp : env.floatToWire order.Price <;> cases hs : env.floatToWire order.Size <;>
    cases hl : order.OrderType.Limit <;> cases ht : order.OrderType.Trigger <;>
    simp_all
  all_goals
    rename_i trigger
    cases hx : env.floatToWire trigger.TriggerPx <;> simp_all

/-- A successful loop fills one slot per request, slot `j` from request `j`. -/
theorem newCreateOrderAction_loop_ok (env : Env) (e : Exchange) :
    ∀ (orders : List CreateOrderRequest) (i : Nat) (wires : List OrderWire),
      newCreateOrderAction.loop env e i orders = .ok wires →
      wires.length = orders.length ∧
      ∀ j order, orders[j]? = some order →
        ∃ w, wires[j]? = some w ∧ newCreateOrderAction.body env e (i + j) order = .ok w := by
  intro orders
  induction orders with
  | nil =>
    intro i wires h
    simp [newCreateOrderAction.loop] at h
    subst h
    simp
  | cons o rest ih =>
    intro i wires h
    unfold newCreateOrderAction.loop at h
    cases hb : newCreateOrderAction.body env e i o with
    | error err => simp [hb] at h
    | ok w0 =>
      cases hr : newCreateOrderAction.loop env e (i + 1) rest with
      | error err => simp [hb, hr] at h
      | ok ws =>
        simp [hb, hr] at h
        subst h
        obtain ⟨hlen, hslots⟩ := ih (i + 1) ws hr
        refine ⟨by simp [hlen], ?_⟩
        intro j order hj
        cases j with
        | zero =>
          simp at hj
          subst hj
          exact ⟨w0, by simp, hb⟩
        | succ j =>
          simp at hj
          obtain ⟨w, hw, hbody⟩ := hslots j order hj
          refine ⟨w, by simpa using hw, ?_⟩
          have : i + (j + 1) = i + 1 + j := by omega
          rw [this]
          exact hbody

/-- The loop returns the error of the first request its body fails on. -/
theorem newCreateOrderAction_loop_first_error (env : Env) (e : Exchange) :
    ∀ (orders : List CreateOrderRequest) (i j : Nat) (order : CreateOrderRequest) (err : Error),
      orders[j]? = some order →
      (∀ k o, k < j → orders[k]? = some o → env.rejects o = false) →
      newCreateOrderAction.body env e (i + j) order = .error err →
      newCreateOrderAction.loop env e i orders = .error err := by
  intro orders
  induction orders with
  | nil =>
    intro i j order err hj
    simp at hj
  | cons o rest ih =>
    intro i j order err hj hfirst hbody
    unfold newCreateOrderAction.loop
    cases j with
    | zero =>
      simp at hj
      subst hj
      simp at hbody
      simp [hbody]
    | succ j =>
      simp at hj
      have h0 : env.rejects o = false := hfirst 0 o (by omega) (by simp)
      obtain ⟨w0, hw0⟩ := (newCreateOrderAction_body_ok_iff env e i o).2 h0
      have hrest : newCreateOrderAction.loop env e (i + 1) rest = .error err := by
        apply ih (i + 1) j order err hj
        · intro k o1 hk ho1
          exact hfirst (k + 1) o1 (by omega) (by simpa using ho1)
        · have : i + 1 + j = i + (j + 1) := by omega
          rw [this]
          exact hbody
      simp [hw0, hrest]

/-- The loop fails exactly when some request is rejected. -/
theorem newCreateOrderAction_loop_error_iff (env : Env) (e : Exchange) :
    ∀ (orders : List CreateOrderRequest) (i : Nat),
      (∃ err, newCreateOrderAction.loop env e i orders = .error err)
        ↔ ∃ o ∈ orders, env.rejects o = true := by
  intro orders
  induction orders with
  | nil => intro i; simp [newCreateOrderAction.loop]
  | cons o rest ih =>
    intro i
    unfold newCreateOrderAction.loop
    cases hrej : env.rejects o with
    | true =>
      obtain ⟨cause, hc⟩ := newCreateOrderAction_body_error env e i o hrej
      rcases hc with hc | hc | hc <;> simp [hc, hrej]
    | false =>
      obtain ⟨w0, hw0⟩ := (newCreateOrderAction_body_ok_iff env e i o).2 hrej
      have := ih (i + 1)
      cases hr : newCreateOrderAction.loop env e (i + 1) rest with
      | error err =>
        have h2 : ∃ o ∈ rest, env.rejects o = true := this.1 ⟨err, hr⟩
        simp [hw0, hrej, h2]
      | ok ws =>
        have h2 : ¬ ∃ o ∈ rest, env.rejects o = true := by
          intro hex
          obtain ⟨err, herr⟩ := this.2 hex
          rw [hr] at herr
          cases herr
        simp only [hw0]
        simp [hrej]
        simpa using h2

/-- What a successful `newModifyOrderAction` returns: every field except the wire order
type of a trigger order, which depends on the side of the conflict. -/
theorem newModifyOrderAction_ok {env : Env} {side : MergeSide} {e : Exchange}
    {req : ModifyOrderRequest} {m : ModifyAction}
    (h : newModifyOrderAction env side e req = .ok m) :
    m.Type_ = "modify" ∧ m.Oid = req.Oid
      ∧ m.Order.Asset = env.NameToAsset e.info req.Order.Coin
      ∧ m.Order.IsBuy = req.Order.IsBuy
      ∧ env.floatToWire req.Order.Price = .ok m.Order.LimitPx
      ∧ env.floatToWire req.Order.Size = .ok m.Order.Size
      ∧ m.Order.ReduceOnly = req.Order.ReduceOnly ∧ m.Order.Cloid = req.Order.ClientOrderID
      ∧ (∀ limit, req.Order.OrderType.Limit = some limit →
          m.Order.OrderType = { Limit := some { Tif := limit.Tif }, Trigger := none }) := by
  unfold newModifyOrderAction at h
  cases hp : env.floatToWire req.Order.Price with
  | error err => simp [hp] at h
  | ok priceWire =>
    cases hs : env.floatToWire req.Order.Size with
    | error err => simp [hp, hs] at h
    | ok sizeWire =>
      simp only [hp, hs] at h
      cases hl : req.Order.OrderType.Limit with
      | some limit =>
        simp only [hl] at h
        cases h
        simp
      | none =>
        simp only [hl] at h
        cases ht : req.Order.OrderType.Trigger with
        | none =>
          simp only [ht] at h
          cases h
          simp
        | some trigger =>
          simp only [ht] at h
          cases hx : env.floatToWire trigger.TriggerPx with
          | error err => cases side <;> simp [hx] at h
          | ok px =>
            cases side <;> simp only [hx] at h <;> cases h <;> simp

/-- On either side of the conflict `newModifyOrderAction` fails exactly on the requests
whose order `floatToWire` rejects. -/
theorem newModifyOrderAction_error_iff (env : Env) (side : MergeSide) (e : Exchange)
    (req : ModifyOrderRequest) :
    (∃ err, newModifyOrderAction env side e req = .error err)
      ↔ env.rejects req.Order = true := by
  unfold newModifyOrderAction Env.rejects Env.wireFails
  cases hp : env.floatToWire req.Order.Price <;> cases hs : env.floatToWire req.Order.Size <;>
    cases hl : req.Order.OrderType.Limit <;> cases ht : req.Order.OrderType.Trigger <;> simp
  all_goals
    rename_i trigger
    cases hx : env.floatToWire trigger.TriggerPx <;> cases side <;> simp

/-- A successful batch loop fills one slot per request, slot `j` with the modify action of
request `j`. -/
theorem newModifyOrdersAction_loop_ok (env : Env) (side : MergeSide) (e : Exchange) :
    ∀ (reqs : List ModifyOrderRequest) (i : Nat) (modifies : List ModifyAction),
      newModifyOrdersAction.loop env side e i reqs = .ok modifies →
      modifies.length = reqs.length ∧
      ∀ (j : Nat) req, reqs[j]? = some req →
        ∃ m, modifies[j]? = some m ∧ newModifyOrderAction env side e req = .ok m := by
  intro reqs
  induction reqs with
  | nil =>
    intro i modifies h
    simp [newModifyOrdersAction.loop] at h
    subst h
    simp
  | cons r rest ih =>
    intro i modifies h
    unfold newModifyOrdersAction.loop at h
    cases hb : newModifyOrderAction env side e r with
    | error err => simp [hb] at h
    | ok m0 =>
      cases hr : newModifyOrdersAction.loop env side e (i + 1) rest with
      | error err => simp [hb, hr] at h
      | ok ms =>
        simp [hb, hr] at h
        subst h
        obtain ⟨hlen, hslots⟩ := ih (i + 1) ms hr
        refine ⟨by simp [hlen], ?_⟩
        intro j req hj
        cases j with
        | zero =>
          simp at hj
          subst hj
          exact ⟨m0, by simp, hb⟩
        | succ j =>
          simp at hj
          obtain ⟨m, hm, hbody⟩ := hslots j req hj
          exact ⟨m, by simpa using hm, hbody⟩

/-- A list with an element satisfying `p` has a first such element. -/
theorem exists_first_index {α : Type} (p : α → Bool) :
    ∀ l : List α, (∃ a ∈ l, p a = true) →
      ∃ (j : Nat) (a : α), l[j]? = some a ∧ p a = true ∧
        ∀ (k : Nat) (b : α), k < j → l[k]? = some b → p b = false := by
  intro l
  induction l with
  | nil => simp
  | cons x rest ih =>
    intro h
    cases hx : p x with
    | true => exact ⟨0, x, by simp, hx, by intro k b hk; omega⟩
    | false =>
      have hrest : ∃ a ∈ rest, p a = true := by
        obtain ⟨a, ha, hpa⟩ := h
        rcases List.mem_cons.1 ha with rfl | hmem
        · rw [hx] at hpa; cases hpa
        · exact ⟨a, hmem, hpa⟩
      obtain ⟨j, a, hj, hpa, hfirst⟩ := ih hrest
      refine ⟨j + 1, a, by simpa using hj, hpa, ?_⟩
      intro k b hk hb
      cases k with
      | zero =>
        simp at hb
        subst hb
        exact hx
      | succ k =>
        simp at hb
        exact hfirst k b (by omega) hb

/-- C5: when `newCreateOrderAction` succeeds, `Orders` has the length of the input and
`Orders[i]` is built from request `i` alone (it is the wire order the builder makes of that
request by itself): `IsBuy`, `ReduceOnly` and `Cloid` are copied from it, `LimitPx` and
`Size` are `floatToWire` of its `Price` and `Size`. When `newModifyOrdersAction` succeeds,
`Modifies` has the length of the input and `Modifies[i]` is `newModifyOrderAction` of
request `i`. -/
theorem C5_builders_preserve_order (env : Env) (side : MergeSide) (e : Exchange)
    (builder : Option BuilderInfo) :
    (∀ (orders : List CreateOrderRequest) (action : OrderAction),
      newCreateOrderAction env e orders builder = .ok action →
      action.Orders.length = orders.length ∧
      ∀ (i : Nat) (order : CreateOrderRequest), orders[i]? = some order →
        ∃ w, action.Orders[i]? = some w
          ∧ w.IsBuy = order.IsBuy ∧ w.ReduceOnly = order.ReduceOnly
          ∧ w.Cloid = order.ClientOrderID
          ∧ env.floatToWire order.Price = .ok w.LimitPx
          ∧ env.floatToWire order.Size = .ok w.Size
          ∧ ∃ single, newCreateOrderAction env e [order] builder = .ok single
              ∧ single.Orders = [w])
    ∧ (∀ (reqs : List ModifyOrderRequest) (batch : BatchModifyAction),
      newModifyOrdersAction env side e reqs = .ok batch →
      batch.Modifies.length = reqs.length ∧
      ∀ (i : Nat) (req : ModifyOrderRequest), reqs[i]? = some req →
        ∃ m, batch.Modifies[i]? = some m ∧ newModifyOrderAction env side e req = .ok m) := by
  constructor
  · intro orders action h
    unfold newCreateOrderAction at h
    cases hl : newCreateOrderAction.loop env e 0 orders with
    | error err => simp [hl] at h
    | ok wires =>
      simp only [hl] at h
      cases h
      obtain ⟨hlen, hslots⟩ := newCreateOrderAction_loop_ok env e orders 0 wires hl
      refine ⟨hlen, ?_⟩
      intro i order hi
      obtain ⟨w, hw, hbody⟩ := hslots i order hi
      obtain ⟨_, hbuy, hpx, hsz, hro, hcl, _⟩ := newCreateOrderAction_body_ok hbody
      refine ⟨w, hw, hbuy, hro, hcl, hpx, hsz, ?_⟩
      have h0 := newCreateOrderAction_body_index hbody 0
      simp [newCreateOrderAction, newCreateOrderAction.loop, h0]
  · intro reqs batch h
    unfold newModifyOrdersAction at h
    cases hl : newModifyOrdersAction.loop env side e 0 reqs with
    | error err => simp [hl] at h
    | ok modifies =>
      simp only [hl] at h
      cases h
      exact newModifyOrdersAction_loop_ok env side e reqs 0 modifies hl

/-- C4: when at least one request of the list has a price, a size or (for a trigger order)
a trigger price that `floatToWire` rejects, `newCreateOrderAction` returns an error whose
text names the 0-based index `j` of the first such request, and `BulkOrders` returns that
error with a nil result having done nothing but call the builder: `executeAction` is not
called, so nothing is signed and nothing is posted. -/
theorem C4_first_rejected_index (env : Env) (e : Exchange)
    (orders : List CreateOrderRequest) (builder : Option BuilderInfo)
    (h : ∃ o ∈ orders, env.rejects o = true) :
    ∃ (j : Nat) (order : CreateOrderRequest) (err cause : Error),
      orders[j]? = some order ∧ env.rejects order = true
      ∧ (∀ (k : Nat) (o : CreateOrderRequest), k < j → orders[k]? = some o →
          env.rejects o = false)
      ∧ newCreateOrderAction env e orders builder = .error err
      ∧ (err = .wirePriceForOrder j cause ∨ err = .wireSizeForOrder j cause
          ∨ err = .wireTriggerPxForOrder j cause)
      ∧ (∃ what ∈ ["price", "size", "triggerPx"],
          err.message =
            "failed to wire " ++ what ++ " for order " ++ toString j ++ ": " ++ cause.message)
      ∧ BulkOrders env e orders builder =
          ((none, some err), [Event.newCreateOrderAction orders builder]) := by
  obtain ⟨j, order, hj, hrej, hfirst⟩ := exists_first_index env.rejects orders h
  obtain ⟨cause, hc⟩ := newCreateOrderAction_body_error env e (0 + j) order hrej
  have key : ∀ err, newCreateOrderAction.body env e (0 + j) order = .error err →
      newCreateOrderAction env e orders builder = .error err
      ∧ BulkOrders env e orders builder =
          ((none, some err), [Event.newCreateOrderAction orders builder]) := by
    intro err herr
    have hloop := newCreateOrderAction_loop_first_error env e orders 0 j order err hj hfirst herr
    have hb : newCreateOrderAction env e orders builder = .error err := by
      simp [newCreateOrderAction, hloop]
    exact ⟨hb, by simp [BulkOrders, hb]⟩
  simp only [Nat.zero_add] at hc
  rcases hc with hc | hc | hc
  · obtain ⟨h1, h2⟩ := key _ (by simpa using hc)
    exact ⟨j, order, _, cause, hj, hrej, hfirst, h1, Or.inl rfl,
      ⟨"price", by simp, rfl⟩, h2⟩
  · obtain ⟨h1, h2⟩ := key _ (by simpa using hc)
    exact ⟨j, order, _, cause, hj, hrej, hfirst, h1, Or.inr (Or.inl rfl),
      ⟨"size", by simp, rfl⟩, h2⟩
  · obtain ⟨h1, h2⟩ := key _ (by simpa using hc)
    exact ⟨j, order, _, cause, hj, hrej, hfirst, h1, Or.inr (Or.inr rfl),
      ⟨"triggerPx", by simp, rfl⟩, h2⟩

/-- A result that is not an error is a value. -/
theorem exists_ok_of_toBool {ε α : Type} (x : Except ε α) (h : x.toBool = true) :
    ∃ a, x = .ok a := by
  cases x with
  | error err => simp [Except.toBool] at h
  | ok a => exact ⟨a, rfl⟩

/-- Witness of C5: two requests, built in order. -/
theorem C5_builders_preserve_order_witness :
    (∃ action, newCreateOrderAction nullEnv modelExchange
        [limitRequest "ETH" one, bothRequest] none = .ok action
      ∧ action.Orders.length = 2
      ∧ ∃ w, action.Orders[1]? = some w ∧ w.IsBuy = false ∧ w.Cloid = some "0x1234"
          ∧ floatToWireModel bothRequest.Price = .ok w.LimitPx)
    ∧ (∃ batch, newModifyOrdersAction nullEnv .head modelExchange
        [⟨.int64 7, limitRequest "ETH" one⟩, ⟨.string "0x1234", bothRequest⟩] = .ok batch
      ∧ batch.Modifies.length = 2
      ∧ ∃ m, batch.Modifies[1]? = some m
          ∧ newModifyOrderAction nullEnv .head modelExchange ⟨.string "0x1234", bothRequest⟩
              = .ok m) := by
  have hc : ∃ action, newCreateOrderAction nullEnv modelExchange
      [limitRequest "ETH" one, bothRequest] none = .ok action :=
    exists_ok_of_toBool _ (by decide)
  have hm : ∃ batch, newModifyOrdersAction nullEnv .head modelExchange
      [⟨.int64 7, limitRequest "ETH" one⟩, ⟨.string "0x1234", bothRequest⟩] = .ok batch :=
    exists_ok_of_toBool _ (by decide)
  obtain ⟨action, ha⟩ := hc
  obtain ⟨batch, hb⟩ := hm
  have h5 := C5_builders_preserve_order nullEnv .head modelExchange none
  obtain ⟨hlen, hslots⟩ := h5.1 _ action ha
  obtain ⟨w, hw, hbuy, _, hcl, hpx, _⟩ := hslots 1 bothRequest (by decide)
  obtain ⟨hlen2, hslots2⟩ := h5.2 _ batch hb
  obtain ⟨m, hm1, hm2⟩ := hslots2 1 ⟨.string "0x1234", bothRequest⟩ (by decide)
  exact ⟨⟨action, ha, hlen, w, hw, hbuy, hcl, hpx⟩, ⟨batch, hb, hlen2, m, hm1, hm2⟩⟩

/-- Witness of C4: three orders, the second with price NaN; the error names index 1. -/
theorem C4_first_rejected_index_witness :
    (∃ o ∈ threeOrders, nullEnv.rejects o = true)
    ∧ ∃ (j : Nat) (order : CreateOrderRequest) (err cause : Error),
      threeOrders[j]? = some order ∧ nullEnv.rejects order = true
      ∧ (∀ (k : Nat) (o : CreateOrderRequest), k < j → threeOrders[k]? = some o →
          nullEnv.rejects o = false)
      ∧ newCreateOrderAction nullEnv modelExchange threeOrders none = .error err
      ∧ (err = .wirePriceForOrder j cause ∨ err = .wireSizeForOrder j cause
          ∨ err = .wireTriggerPxForOrder j cause)
      ∧ (∃ what ∈ ["price", "size", "triggerPx"],
          err.message =
            "failed to wire " ++ what ++ " for order " ++ toString j ++ ": " ++ cause.message)
      ∧ BulkOrders nullEnv modelExchange threeOrders none =
          ((none, some err), [Event.newCreateOrderAction threeOrders none]) :=
  ⟨⟨limitRequest "BTC" .nan, by decide, by decide⟩,
    C4_first_rejected_index nullEnv modelExchange threeOrders none
      ⟨limitRequest "BTC" .nan, by decide, by decide⟩⟩

/-- The batch scenario of the spec run through the code: three orders, the second with price
NaN; the builder error names index 1 and `BulkOrders` signs and posts nothing. -/
theorem BulkOrders_threeOrders :
    BulkOrders nullEnv modelExchange threeOrders none =
      ((none, some (.wirePriceForOrder 1 (.external "float_to_wire: NaN"))),
        [Event.newCreateOrderAction threeOrders none])
    ∧ (Error.wirePriceForOrder 1 (.external "float_to_wire: NaN")).message =
        "failed to wire price for order 1: float_to_wire: NaN" := by
  decide

/-- C2, as the code has it: a request whose `OrderType` has both `Limit` and `Trigger` set,
and whose price and size `floatToWire` accepts, makes neither builder fail. Each returns an
action whose wire order type has the limit sub-object only, with the time-in-force of the
request; the `Trigger` is dropped and its trigger price is never given to `floatToWire`. The
same wire order type stands at the place of the request in every action built from a list
that contains it. -/
theorem C2_both_set_keeps_limit (env : Env) (side : MergeSide) (e : Exchange)
    (req : CreateOrderRequest) (builder : Option BuilderInfo) (oid : AnyValue)
    (limit : LimitOrderType) (trigger : TriggerOrderType) (priceWire sizeWire : String)
    (hl : req.OrderType.Limit = some limit) (ht : req.OrderType.Trigger = some trigger)
    (hp : env.floatToWire req.Price = .ok priceWire)
    (hs : env.floatToWire req.Size = .ok sizeWire) :
    newCreateOrderAction env e [req] builder =
        .ok { Type_ := "order",
              Orders := [{ Asset := env.NameToAsset e.info req.Coin,
                           IsBuy := req.IsBuy,
                           LimitPx := priceWire,
                           Size := sizeWire,
                           ReduceOnly := req.ReduceOnly,
                           OrderType := { Limit := some { Tif := limit.Tif }, Trigger := none },
                           Cloid := req.ClientOrderID }],
              Grouping := env.GroupingNA,
              Builder := builder }
    ∧ newModifyOrderAction env side e { Oid := oid, Order := req } =
        .ok { Type_ := "modify",
              Oid := oid,
              Order := { Asset := env.NameToAsset e.info req.Coin,
                         IsBuy := req.IsBuy,
                         LimitPx := priceWire,
                         Size := sizeWire,
                         ReduceOnly := req.ReduceOnly,
                         OrderType := { Limit := some { Tif := limit.Tif }, Trigger := none },
                         Cloid := req.ClientOrderID } }
    ∧ ∀ (orders : List CreateOrderRequest) (i : Nat) (action : OrderAction),
        orders[i]? = some req → newCreateOrderAction env e orders builder = .ok action →
        ∃ w, action.Orders[i]? = some w
          ∧ w.OrderType = { Limit := some { Tif := limit.Tif }, Trigger := none } := by
  have _ := ht
  refine ⟨?_, ?_, ?_⟩
  · simp [newCreateOrderAction, newCreateOrderAction.loop, newCreateOrderAction.body, hl, hp, hs]
  · simp [newModifyOrderAction, hl, hp, hs]
  · intro orders i action hi h
    unfold newCreateOrderAction at h
    cases hloop : newCreateOrderAction.loop env e 0 orders with
    | error err => simp [hloop] at h
    | ok wires =>
      simp only [hloop] at h
      cases h
      obtain ⟨_, hslots⟩ := newCreateOrderAction_loop_ok env e orders 0 wires hloop
      obtain ⟨w, hw, hbody⟩ := hslots i req hi
      exact ⟨w, hw, (newCreateOrderAction_body_ok hbody).2.2.2.2.2.2 limit hl⟩

/-- Witness of C2: the request `bothRequest`, whose trigger price is NaN. -/
theorem C2_both_set_keeps_limit_witness :
    bothRequest.OrderType.Limit = some { Tif := "Gtc" }
    ∧ bothRequest.OrderType.Trigger = some { TriggerPx := .nan, IsMarket := true, Tpsl := "tp" }
    ∧ nullEnv.floatToWire bothRequest.Price = .ok "65000.5"
    ∧ nullEnv.floatToWire bothRequest.Size = .ok "0.25"
    ∧ newCreateOrderAction nullEnv modelExchange [bothRequest] none =
        .ok { Type_ := "order",
              Orders := [{ Asset := nullEnv.NameToAsset modelExchange.info bothRequest.Coin,
                           IsBuy := bothRequest.IsBuy,
                           LimitPx := "65000.5",
                           Size := "0.25",
                           ReduceOnly := bothRequest.ReduceOnly,
                           OrderType := { Limit := some { Tif := "Gtc" }, Trigger := none },
                           Cloid := bothRequest.ClientOrderID }],
              Grouping := nullEnv.GroupingNA,
              Builder := none } :=
  ⟨rfl, rfl, by decide, by decide,
    (C2_both_set_keeps_limit nullEnv .head modelExchange bothRequest none (.int64 7)
      { Tif := "Gtc" } { TriggerPx := .nan, IsMarket := true, Tpsl := "tp" } "65000.5" "0.25"
      rfl rfl (by decide) (by decide)).1⟩

/-- Counterexample to C2 as stated: a request with both `Limit` and `Trigger` set on which
neither builder returns an error; both return an action that keeps the limit. -/
theorem C2_counterexample :
    bothRequest.OrderType.Limit.isSome = true ∧ bothRequest.OrderType.Trigger.isSome = true
    ∧ newCreateOrderAction nullEnv modelExchange [bothRequest] none =
        .ok { Type_ := "order",
              Orders := [{ Asset := 1, IsBuy := false, LimitPx := "65000.5", Size := "0.25",
                           ReduceOnly := false,
                           OrderType := { Limit := some { Tif := "Gtc" }, Trigger := none },
                           Cloid := some "0x1234" }],
              Grouping := "na",
              Builder := none }
    ∧ (∀ side, newModifyOrderAction nullEnv side modelExchange
          { Oid := .int64 7, Order := bothRequest } =
        .ok { Type_ := "modify",
              Oid := .int64 7,
              Order := { Asset := 1, IsBuy := false, LimitPx := "65000.5", Size := "0.25",
                         ReduceOnly := false,
                         OrderType := { Limit := some { Tif := "Gtc" }, Trigger := none },
                         Cloid := some "0x1234" } })
    ∧ ¬ (∀ (env : Env) (e : Exchange) (req : CreateOrderRequest) (b : Option BuilderInfo),
          req.OrderType.Limit.isSome = true → req.OrderType.Trigger.isSome = true →
          ∃ err, newCreateOrderAction env e [req] b = .error err) := by
  refine ⟨rfl, rfl, by decide, ?_, ?_⟩
  · intro side
    cases side <;> decide
  · intro hall
    obtain ⟨err, herr⟩ := hall nullEnv modelExchange bothRequest none rfl rfl
    have hok : (newCreateOrderAction nullEnv modelExchange [bothRequest] none).toBool = true := by
      decide
    rw [herr] at hok
    cases hok

/-- C3, as the code has it: the builders have no error for an unknown coin. Whether
`newCreateOrderAction` or `newModifyOrderAction` returns an error depends on `floatToWire`
alone (on prices, sizes and wired trigger prices), never on the coin; and every action they
return carries, for each order, the integer `NameToAsset` returns for the coin of that
order. -/
theorem C3_asset_is_NameToAsset (env : Env) (side : MergeSide) (e : Exchange)
    (builder : Option BuilderInfo) :
    (∀ orders : List CreateOrderRequest,
      (∃ err, newCreateOrderAction env e orders builder = .error err)
        ↔ ∃ o ∈ orders, env.rejects o = true)
    ∧ (∀ (orders : List CreateOrderRequest) (action : OrderAction),
        newCreateOrderAction env e orders builder = .ok action →
        ∀ (i : Nat) (order : CreateOrderRequest), orders[i]? = some order →
          ∃ w, action.Orders[i]? = some w ∧ w.Asset = env.NameToAsset e.info order.Coin)
    ∧ (∀ req : ModifyOrderRequest,
        (∃ err, newModifyOrderAction env side e req = .error err)
          ↔ env.rejects req.Order = true)
    ∧ (∀ (req : ModifyOrderRequest) (m : ModifyAction),
        newModifyOrderAction env side e req = .ok m →
        m.Order.Asset = env.NameToAsset e.info req.Order.Coin)
    ∧ (∀ (order : CreateOrderRequest) (coin : String),
        env.rejects { order with Coin := coin } = env.rejects order) := by
  refine ⟨?_, ?_, ?_, ?_, ?_⟩
  · intro orders
    rw [← newCreateOrderAction_loop_error_iff env e orders 0]
    unfold newCreateOrderAction
    cases hloop : newCreateOrderAction.loop env e 0 orders <;> simp
  · intro orders action h i order hi
    unfold newCreateOrderAction at h
    cases hloop : newCreateOrderAction.loop env e 0 orders with
    | error err => simp [hloop] at h
    | ok wires =>
      simp only [hloop] at h
      cases h
      obtain ⟨_, hslots⟩ := newCreateOrderAction_loop_ok env e orders 0 wires hloop
      obtain ⟨w, hw, hbody⟩ := hslots i order hi
      exact ⟨w, hw, (newCreateOrderAction_body_ok hbody).1⟩
  · intro req
    exact newModifyOrderAction_error_iff env side e req
  · intro req m h
    exact (newModifyOrderAction_ok h).2.2.1
  · intro order coin
    rfl

/-- Witness of C3: a list whose second coin, `DOGE`, is not in the asset table. -/
theorem C3_asset_is_NameToAsset_witness :
    GoMap.get? modelExchange.info.assetTable "DOGE" = none
    ∧ ∃ action, newCreateOrderAction nullEnv modelExchange
          [limitRequest "ETH" one, limitRequest "DOGE" one] none = .ok action
        ∧ ∃ w, action.Orders[1]? = some w
            ∧ w.Asset = nullEnv.NameToAsset modelExchange.info "DOGE" := by
  refine ⟨by decide, ?_⟩
  obtain ⟨action, ha⟩ := exists_ok_of_toBool (newCreateOrderAction nullEnv modelExchange
    [limitRequest "ETH" one, limitRequest "DOGE" one] none) (by decide)
  obtain ⟨w, hw, hasset⟩ :=
    (C3_asset_is_NameToAsset nullEnv .head modelExchange none).2.1 _ action ha 1
      (limitRequest "DOGE" one) (by decide)
  exact ⟨action, ha, w, hw, hasset⟩

/-- Counterexample to C3 as stated: the coin `DOGE` is not in the asset table, and both
builders return an action for it (here with asset index 0) instead of an error. -/
theorem C3_counterexample :
    GoMap.get? modelExchange.info.assetTable "DOGE" = none
    ∧ newCreateOrderAction nullEnv modelExchange [limitRequest "DOGE" one] none =
        .ok { Type_ := "order",
              Orders := [{ Asset := 0, IsBuy := true, LimitPx := "1", Size := "1",
                           ReduceOnly := false,
                           OrderType := { Limit := some { Tif := "Gtc" }, Trigger := none },
                           Cloid := none }],
              Grouping := "na",
              Builder := none }
    ∧ (∀ side, newModifyOrderAction nullEnv side modelExchange
          { Oid := .int64 7, Order := limitRequest "DOGE" one } =
        .ok { Type_ := "modify",
              Oid := .int64 7,
              Order := { Asset := 0, IsBuy := true, LimitPx := "1", Size := "1",
                         ReduceOnly := false,
                         OrderType := { Limit := some { Tif := "Gtc" }, Trigger := none },
                         Cloid := none } })
    ∧ ¬ (∀ (env : Env) (e : Exchange) (orders : List CreateOrderRequest)
          (b : Option BuilderInfo),
          (∃ o ∈ orders, GoMap.get? e.info.assetTable o.Coin = none) →
          ∃ err, newCreateOrderAction env e orders b = .error err) := by
  refine ⟨by decide, by decide, ?_, ?_⟩
  · intro side
    cases side <;> decide
  · intro hall
    obtain ⟨err, herr⟩ := hall nullEnv modelExchange [limitRequest "DOGE" one] none
      ⟨limitRequest "DOGE" one, by simp, by decide⟩
    have hok : (newCreateOrderAction nullEnv modelExchange
        [limitRequest "DOGE" one] none).toBool = true := by
      decide
    rw [herr] at hok
    cases hok

/-! ## Submission -/

/-- No error of `newCreateOrderAction` is a position-not-found error. -/
theorem newCreateOrderAction_error_kind {env : Env} {e : Exchange}
    {orders : List CreateOrderRequest} {builder : Option BuilderInfo} {err : Error}
    (h : newCreateOrderAction env e orders builder = .error err) :
    err.isPositionNotFound = false := by
  have hex : ∃ o ∈ orders, env.rejects o = true := by
    rw [← newCreateOrderAction_loop_error_iff env e orders 0]
    unfold newCreateOrderAction at h
    cases hloop : newCreateOrderAction.loop env e 0 orders with
    | error err1 => exact ⟨err1, rfl⟩
    | ok wires => simp [hloop] at h
  obtain ⟨j, order, hj, hrej, hfirst⟩ := exists_first_index env.rejects orders hex
  obtain ⟨cause, hc⟩ := newCreateOrderAction_body_error env e (0 + j) order hrej
  have key : ∀ err1, newCreateOrderAction.body env e (0 + j) order = .error err1 →
      err = err1 := by
    intro err1 h1
    have hloop := newCreateOrderAction_loop_first_error env e orders 0 j order err1 hj hfirst h1
    unfold newCreateOrderAction at h
    simp [hloop] at h
    exact h.symm
  rcases hc with hc | hc | hc <;> rw [key _ hc] <;> rfl

/-- Every error of `executeAction` comes from outside the two files. -/
theorem executeAction_error_kind {env : Env} {e : Exchange} {action : Action} {err : Error}
    (h : (executeAction env e action).1 = .error err) : err.isPositionNotFound = false := by
  unfold executeAction postAction at h
  cases hs : env.SignL1Action e.privateKey action e.vault env.now e.expiresAfter
      (e.client.baseURL == env.MainnetAPIURL) with
  | error msg =>
    simp [hs] at h
    subst h
    rfl
  | ok sig =>
    simp only [hs] at h
    cases hp : env.post e.client "/exchange" (postAction.payload e action sig env.now) with
    | error msg =>
      simp [hp] at h
      subst h
      rfl
    | ok resp =>
      simp only [hp] at h
      cases hu : env.Unmarshal resp with
      | error msg =>
        simp [hu] at h
        subst h
        rfl
      | ok result => simp [hu] at h

/-- No error of `BulkOrders` is a position-not-found error. -/
theorem BulkOrders_error_kind {env : Env} {e : Exchange} {orders : List CreateOrderRequest}
    {builder : Option BuilderInfo} {err : Error}
    (h : (BulkOrders env e orders builder).1.2 = some err) :
    err.isPositionNotFound = false := by
  unfold BulkOrders at h
  cases hb : newCreateOrderAction env e orders builder with
  | error err1 =>
    simp [hb] at h
    subst h
    exact newCreateOrderAction_error_kind hb
  | ok action =>
    simp only [hb] at h
    cases hx : executeAction env e (.OrderAction action) with
    | mk res events =>
      cases res with
      | error err1 =>
        simp [hx] at h
        subst h
        exact executeAction_error_kind (by rw [hx])
      | ok result =>
        cases result with
        | none => simp [hx] at h
        | some r =>
          simp only [hx] at h
          cases hf : BulkOrders.firstError r.Data.Statuses with
          | none => simp [hf] at h
          | some msg =>
            simp [hf] at h
            subst h
            rfl

/-- No error of `Order` is a position-not-found error. -/
theorem Order_error_kind {env : Env} {e : Exchange} {req : CreateOrderRequest}
    {builder : Option BuilderInfo} {err : Error}
    (h : (Order env e req builder).1 = .ret (.error err)) :
    err.isPositionNotFound = false := by
  unfold Order at h
  cases hb : BulkOrders env e [req] builder with
  | mk res events =>
    obtain ⟨resp, err1⟩ := res
    cases err1 with
    | some err1 =>
      simp [hb] at h
      subst h
      exact BulkOrders_error_kind (by rw [hb])
    | none =>
      cases resp with
      | none => simp [hb] at h
      | some r =>
        simp only [hb] at h
        by_cases hok : r.Ok = true
        · simp only [hok] at h
          cases hst : r.Data.Statuses with
          | nil =>
            simp [hst] at h
            subst h
            rfl
          | cons s rest => simp [hst] at h
        · simp [hok] at h
          subst h
          rfl

/-- Without a position for the coin the loop of `MarketClose` falls through to the final
statement, having called nothing. -/
theorem MarketClose_loop_not_found (env : Env) (e : Exchange) (coin : String)
    (sz px : Option Float64) (slippage : Float64) (cloid : Option String)
    (builder : Option BuilderInfo) :
    ∀ positions : List AssetPosition, (∀ ap ∈ positions, ap.Position.Coin ≠ coin) →
      MarketClose.loop env e coin sz px slippage cloid builder positions =
        (.ret (.error (.positionNotFound coin)), []) := by
  intro positions
  induction positions with
  | nil => intro _; rfl
  | cons ap rest ih =>
    intro h
    unfold MarketClose.loop
    have h0 : coin ≠ ap.Position.Coin := fun hc => h ap (by simp) hc.symm
    simp only [h0, ne_eq, not_false_eq_true, if_true]
    exact ih (fun a ha => h a (by simp [ha]))

/-- With a position for the coin the loop of `MarketClose` stops at the first one: it asks
for the slippage price and, given one, returns what `Order` returns. -/
theorem MarketClose_loop_found (env : Env) (e : Exchange) (coin : String)
    (sz px : Option Float64) (slippage : Float64) (cloid : Option String)
    (builder : Option BuilderInfo) :
    ∀ (positions : List AssetPosition) (ap : AssetPosition),
      positions.find? (fun a => a.Position.Coin == coin) = some ap →
      MarketClose.loop env e coin sz px slippage cloid builder positions =
        match env.SlippagePrice e coin (env.parseFloat ap.Position.Szi).ltZero slippage px with
        | .error err =>
          (.ret (.error (.external err)),
            [Event.SlippagePrice coin (env.parseFloat ap.Position.Szi).ltZero slippage px])
        | .ok slippagePrice =>
          ((Order env e
              { Coin := coin,
                IsBuy := (env.parseFloat ap.Position.Szi).ltZero,
                Price := slippagePrice,
                Size := sz.getD (env.abs (env.parseFloat ap.Position.Szi)),
                ReduceOnly := true,
                OrderType := { Limit := some { Tif := env.TifIoc }, Trigger := none },
                ClientOrderID := cloid } builder).1,
            Event.SlippagePrice coin (env.parseFloat ap.Position.Szi).ltZero slippage px ::
            (Order env e
              { Coin := coin,
                IsBuy := (env.parseFloat ap.Position.Szi).ltZero,
                Price := slippagePrice,
                Size := sz.getD (env.abs (env.parseFloat ap.Position.Szi)),
                ReduceOnly := true,
                OrderType := { Limit := some { Tif := env.TifIoc }, Trigger := none },
                ClientOrderID := cloid } builder).2) := by
  intro positions
  induction positions with
  | nil => intro ap h; simp at h
  | cons a rest ih =>
    intro ap h
    unfold MarketClose.loop
    by_cases hc : a.Position.Coin = coin
    · have hfound : a = ap := by simpa [List.find?, hc] using h
      subst hfound
      have h0 : ¬ coin ≠ a.Position.Coin := by simp [hc]
      simp only [h0, if_false]
      cases hs : env.SlippagePrice e coin (env.parseFloat a.Position.Szi).ltZero slippage px with
      | error err => rfl
      | ok slippagePrice =>
        cases sz <;> rfl
    · have h0 : coin ≠ a.Position.Coin := fun hx => hc hx.symm
      have hbeq : (a.Position.Coin == coin) = false := by simp [hc]
      have hrest : rest.find? (fun a => a.Position.Coin == coin) = some ap := by
        simp only [List.find?_cons, hbeq] at h
        exact h
      simp only [h0, ne_eq, not_false_eq_true, if_true]
      exact ih ap hrest

/-- A list has no element for the coin exactly when `find?` finds none. -/
theorem find?_coin_eq_none (coin : String) (positions : List AssetPosition) :
    positions.find? (fun a => a.Position.Coin == coin) = none
      ↔ ∀ ap ∈ positions, ap.Position.Coin ≠ coin := by
  simp [List.find?_eq_none]

/-- C6: for every coin and every account state retrieved successfully, `MarketClose` fails
with the position-not-found error exactly when no asset position of the state has the coin;
the error names the coin, and in that case `MarketClose` has done nothing but retrieve the
state: it asks for no price, builds no order, signs nothing and posts nothing. -/
theorem C6_MarketClose_position_not_found (env : Env) (e : Exchange) (coin : String)
    (sz px : Option Float64) (slippage : Float64) (cloid : Option String)
    (builder : Option BuilderInfo) (userState : UserState)
    (hstate : env.UserState e.info e.closeAddress = .ok userState) :
    ((∃ err, (MarketClose env e coin sz px slippage cloid builder).1 = .ret (.error err)
          ∧ err.isPositionNotFound = true)
        ↔ ∀ ap ∈ userState.AssetPositions, ap.Position.Coin ≠ coin)
    ∧ ((∀ ap ∈ userState.AssetPositions, ap.Position.Coin ≠ coin) →
        MarketClose env e coin sz px slippage cloid builder =
          (.ret (.error (.positionNotFound coin)), [Event.UserState e.closeAddress])
        ∧ (Error.positionNotFound coin).message = "position not found for coin: " ++ coin) := by
  have hnone : (∀ ap ∈ userState.AssetPositions, ap.Position.Coin ≠ coin) →
      MarketClose env e coin sz px slippage cloid builder =
        (.ret (.error (.positionNotFound coin)), [Event.UserState e.closeAddress]) := by
    intro h
    unfold Exchange.closeAddress at hstate ⊢
    unfold MarketClose
    simp only [hstate]
    rw [MarketClose_loop_not_found env e coin sz px slippage cloid builder _ h]
  refine ⟨⟨?_, ?_⟩, fun h => ⟨hnone h, rfl⟩⟩
  · rintro ⟨err, hret, hkind⟩
    rw [← find?_coin_eq_none]
    cases hf : userState.AssetPositions.find? (fun a => a.Position.Coin == coin) with
    | none => rfl
    | some ap =>
      exfalso
      have hloop := MarketClose_loop_found env e coin sz px slippage cloid builder _ ap hf
      unfold Exchange.closeAddress at hstate
      unfold MarketClose at hret
      simp only [hstate, hloop] at hret
      cases hs : env.SlippagePrice e coin (env.parseFloat ap.Position.Szi).ltZero slippage px with
      | error msg =>
        simp [hs] at hret
        subst hret
        simp [Error.isPositionNotFound] at hkind
      | ok slippagePrice =>
        simp only [hs] at hret
        have := Order_error_kind hret
        rw [this] at hkind
        cases hkind
  · intro h
    exact ⟨.positionNotFound coin, by rw [hnone h], rfl⟩

/-- Witness of C6: an account with ETH and BTC positions asked to close `SOL`. -/
theorem C6_MarketClose_position_not_found_witness :
    (modelEnv threePositions "null" (rejectedAt 0 "")).UserState modelExchange.info
        modelExchange.closeAddress = .ok threePositions
    ∧ (∀ ap ∈ threePositions.AssetPositions, ap.Position.Coin ≠ "SOL")
    ∧ MarketClose (modelEnv threePositions "null" (rejectedAt 0 "")) modelExchange "SOL"
          none none one none none =
        (.ret (.error (.positionNotFound "SOL")), [Event.UserState "0xabc"])
    ∧ (Error.positionNotFound "SOL").message = "position not found for coin: SOL" := by
  refine ⟨rfl, by decide, ?_⟩
  exact (C6_MarketClose_position_not_found (modelEnv threePositions "null" (rejectedAt 0 ""))
    modelExchange "SOL" none none one none none threePositions rfl).2 (by decide)

/-- C9: when the account state has a position for the coin and the slippage price is
obtained, `MarketClose` returns what `Order` returns on a request fixed by the first such
position of the list: reduce-only, limit order type with the immediate-or-cancel
time-in-force, buying exactly when the signed size of the position is negative, with the
size `sz` of the caller when one is given and the absolute value of the signed size of the
position otherwise. `MarketOpen`, given a slippage price, hands over an immediate-or-cancel
limit order that is not reduce-only, with the side and size of the caller. -/
theorem C9_market_order_requests (env : Env) (e : Exchange) (px : Option Float64)
    (slippage : Float64) (cloid : Option String) (builder : Option BuilderInfo) :
    (∀ (coin : String) (sz : Option Float64) (userState : UserState) (ap : AssetPosition)
        (slippagePrice : Float64),
      env.UserState e.info e.closeAddress = .ok userState →
      userState.AssetPositions.find? (fun a => a.Position.Coin == coin) = some ap →
      env.SlippagePrice e coin (env.parseFloat ap.Position.Szi).ltZero slippage px
        = .ok slippagePrice →
      MarketClose env e coin sz px slippage cloid builder =
        ((Order env e
            { Coin := coin,
              IsBuy := (env.parseFloat ap.Position.Szi).ltZero,
              Price := slippagePrice,
              Size := sz.getD (env.abs (env.parseFloat ap.Position.Szi)),
              ReduceOnly := true,
              OrderType := { Limit := some { Tif := env.TifIoc }, Trigger := none },
              ClientOrderID := cloid } builder).1,
          Event.UserState e.closeAddress ::
          Event.SlippagePrice coin (env.parseFloat ap.Position.Szi).ltZero slippage px ::
          (Order env e
            { Coin := coin,
              IsBuy := (env.parseFloat ap.Position.Szi).ltZero,
              Price := slippagePrice,
              Size := sz.getD (env.abs (env.parseFloat ap.Position.Szi)),
              ReduceOnly := true,
              OrderType := { Limit := some { Tif := env.TifIoc }, Trigger := none },
              ClientOrderID := cloid } builder).2))
    ∧ (∀ (name : String) (isBuy : Bool) (sz slippagePrice : Float64),
      env.SlippagePrice e name isBuy slippage px = .ok slippagePrice →
      MarketOpen env e name isBuy sz px slippage cloid builder =
        ((Order env e
            { Coin := name,
              IsBuy := isBuy,
              Price := slippagePrice,
              Size := sz,
              ReduceOnly := false,
              OrderType := { Limit := some { Tif := env.TifIoc }, Trigger := none },
              ClientOrderID := cloid } builder).1,
          Event.SlippagePrice name isBuy slippage px ::
          (Order env e
            { Coin := name,
              IsBuy := isBuy,
              Price := slippagePrice,
              Size := sz,
              ReduceOnly := false,
              OrderType := { Limit := some { Tif := env.TifIoc }, Trigger := none },
              ClientOrderID := cloid } builder).2)) := by
  constructor
  · intro coin sz userState ap slippagePrice hstate hfind hprice
    have hloop := MarketClose_loop_found env e coin sz px slippage cloid builder _ ap hfind
    unfold Exchange.closeAddress at hstate ⊢
    unfold MarketClose
    simp only [hstate, hloop, hprice]
  · intro name isBuy sz slippagePrice hprice
    unfold MarketOpen
    simp only [hprice]

/-- Witness of C9: closing `BTC` on an account whose first BTC position is short 3 (the next
one long 5) buys 3, reduce-only, immediate-or-cancel. -/
theorem C9_market_order_requests_witness :
    (modelEnv threePositions "ok" (rejectedAt 1 "x")).UserState modelExchange.info
        modelExchange.closeAddress = .ok threePositions
    ∧ threePositions.AssetPositions.find? (fun a => a.Position.Coin == "BTC")
        = some { Position := { Coin := "BTC", Szi := "-3" } }
    ∧ MarketClose (modelEnv threePositions "ok" (rejectedAt 1 "x")) modelExchange "BTC"
          none (some one) one none none =
        ((Order (modelEnv threePositions "ok" (rejectedAt 1 "x")) modelExchange
            { Coin := "BTC",
              IsBuy := true,
              Price := one,
              Size := .fin false 3 0,
              ReduceOnly := true,
              OrderType := { Limit := some { Tif := "Ioc" }, Trigger := none },
              ClientOrderID := none } none).1,
          Event.UserState "0xabc" :: Event.SlippagePrice "BTC" true one (some one) ::
          (Order (modelEnv threePositions "ok" (rejectedAt 1 "x")) modelExchange
            { Coin := "BTC",
              IsBuy := true,
              Price := one,
              Size := .fin false 3 0,
              ReduceOnly := true,
              OrderType := { Limit := some { Tif := "Ioc" }, Trigger := none },
              ClientOrderID := none } none).2) :=
  ⟨rfl, by decide,
    (C9_market_order_requests (modelEnv threePositions "ok" (rejectedAt 1 "x")) modelExchange
      (some one) one none none).1 "BTC" none threePositions
      { Position := { Coin := "BTC", Szi := "-3" } } one rfl (by decide) rfl⟩

/-- The loop over the statuses returns the error string of the first status that has one. -/
theorem BulkOrders_firstError_spec :
    ∀ statuses : List OrderStatus, (∃ s ∈ statuses, s.Error.isSome = true) →
      ∃ (i : Nat) (s : OrderStatus) (msg : String),
        statuses[i]? = some s ∧ s.Error = some msg
        ∧ (∀ (k : Nat) (t : OrderStatus), k < i → statuses[k]? = some t → t.Error = none)
        ∧ BulkOrders.firstError statuses = some msg := by
  intro statuses
  induction statuses with
  | nil => simp
  | cons s rest ih =>
    intro h
    cases hs : s.Error with
    | some msg =>
      exact ⟨0, s, msg, by simp, hs, by intro k t hk; omega, by simp [BulkOrders.firstError, hs]⟩
    | none =>
      have hrest : ∃ t ∈ rest, t.Error.isSome = true := by
        obtain ⟨t, ht, hsome⟩ := h
        rcases List.mem_cons.1 ht with rfl | hmem
        · rw [hs] at hsome; cases hsome
        · exact ⟨t, hmem, hsome⟩
      obtain ⟨i, t, msg, hi, hmsg, hfirst, hres⟩ := ih hrest
      refine ⟨i + 1, t, msg, by simpa using hi, hmsg, ?_, by simp [BulkOrders.firstError, hs, hres]⟩
      intro k u hk hu
      cases k with
      | zero =>
        simp at hu
        subst hu
        exact hs
      | succ k =>
        simp at hu
        exact hfirst k u (by omega) hu

/-- C7, as the code has it: when the action is built, `executeAction` succeeds and the
response decodes to a non-nil value in which at least one per-order status carries an error
field, `BulkOrders` returns that response together with an error whose text is, verbatim,
the error string of the first such status in the list. The error holds that string and
nothing else; which order of the batch failed shows only in the returned response. -/
theorem C7_BulkOrders_first_status_error (env : Env) (e : Exchange)
    (orders : List CreateOrderRequest) (builder : Option BuilderInfo) (action : OrderAction)
    (resp : APIResponse OrderResponse)
    (hbuild : newCreateOrderAction env e orders builder = .ok action)
    (hexec : (executeAction env e (.OrderAction action)).1 = .ok (some resp))
    (herr : ∃ s ∈ resp.Data.Statuses, s.Error.isSome = true) :
    ∃ (i : Nat) (s : OrderStatus) (msg : String),
      resp.Data.Statuses[i]? = some s ∧ s.Error = some msg
      ∧ (∀ (k : Nat) (t : OrderStatus), k < i → resp.Data.Statuses[k]? = some t →
          t.Error = none)
      ∧ BulkOrders env e orders builder =
          ((some resp, some (.statusError msg)),
            Event.newCreateOrderAction orders builder ::
              (executeAction env e (.OrderAction action)).2)
      ∧ (Error.statusError msg).message = msg := by
  obtain ⟨i, s, msg, hi, hmsg, hfirst, hres⟩ := BulkOrders_firstError_spec _ herr
  refine ⟨i, s, msg, hi, hmsg, hfirst, ?_, rfl⟩
  unfold BulkOrders
  cases hx : executeAction env e (.OrderAction action) with
  | mk res events =>
    rw [hx] at hexec
    simp only at hexec
    subst hexec
    simp only [hbuild]
    rw [hx]
    simp only [hres]

/-- Witness of C7: a batch of two whose second order the exchange rejects. -/
theorem C7_BulkOrders_first_status_error_witness :
    (∃ action, newCreateOrderAction (modelEnv threePositions "ok" (rejectedAt 1 "Insufficient margin"))
          modelExchange [limitRequest "BTC" one, limitRequest "ETH" one] none = .ok action
      ∧ (executeAction (modelEnv threePositions "ok" (rejectedAt 1 "Insufficient margin"))
          modelExchange (.OrderAction action)).1
            = .ok (some (rejectedAt 1 "Insufficient margin")))
    ∧ (∃ s ∈ (rejectedAt 1 "Insufficient margin").Data.Statuses, s.Error.isSome = true)
    ∧ ∃ (i : Nat) (s : OrderStatus) (msg : String),
        (rejectedAt 1 "Insufficient margin").Data.Statuses[i]? = some s ∧ s.Error = some msg
        ∧ (BulkOrders (modelEnv threePositions "ok" (rejectedAt 1 "Insufficient margin"))
            modelExchange [limitRequest "BTC" one, limitRequest "ETH" one] none).1 =
            (some (rejectedAt 1 "Insufficient margin"), some (.statusError msg))
        ∧ (Error.statusError msg).message = msg := by
  obtain ⟨action, ha⟩ := exists_ok_of_toBool (newCreateOrderAction
    (modelEnv threePositions "ok" (rejectedAt 1 "Insufficient margin"))
    modelExchange [limitRequest "BTC" one, limitRequest "ETH" one] none) (by decide)
  have hexec : (executeAction (modelEnv threePositions "ok" (rejectedAt 1 "Insufficient margin"))
      modelExchange (.OrderAction action)).1
        = .ok (some (rejectedAt 1 "Insufficient margin")) := by
    simp [executeAction, postAction, modelEnv]
  have herr : ∃ s ∈ (rejectedAt 1 "Insufficient margin").Data.Statuses,
      s.Error.isSome = true := ⟨errorStatus "Insufficient margin", by decide, rfl⟩
  obtain ⟨i, s, msg, hi, hmsg, _, hbulk, hm⟩ :=
    C7_BulkOrders_first_status_error _ modelExchange _ none action _ ha hexec herr
  exact ⟨⟨action, ha, hexec⟩, herr, i, s, msg, hi, hmsg, by rw [hbulk], hm⟩

/-- Counterexample to C7 as stated: the same batch rejected once at its order 0 and once at
its order 1 makes `BulkOrders` return the same error, whose text is the error string alone;
the error does not tell which order of the batch failed. -/
theorem C7_counterexample :
    (BulkOrders (modelEnv threePositions "ok" (rejectedAt 0 "Insufficient margin"))
        modelExchange [limitRequest "BTC" one, limitRequest "ETH" one] none).1 =
      (some (rejectedAt 0 "Insufficient margin"), some (.statusError "Insufficient margin"))
    ∧ (BulkOrders (modelEnv threePositions "ok" (rejectedAt 1 "Insufficient margin"))
        modelExchange [limitRequest "BTC" one, limitRequest "ETH" one] none).1 =
      (some (rejectedAt 1 "Insufficient margin"), some (.statusError "Insufficient margin"))
    ∧ (rejectedAt 0 "Insufficient margin").Data.Statuses.map (fun s => s.Error) =
        [some "Insufficient margin", none]
    ∧ (rejectedAt 1 "Insufficient margin").Data.Statuses.map (fun s => s.Error) =
        [none, some "Insufficient margin"]
    ∧ (Error.statusError "Insufficient margin").message = "Insufficient margin" := by
  decide

/-- C10 fails on the code: when the response body is the JSON text `null`, `executeAction`
leaves the response nil without an error, `BulkOrders`, which checks `result != nil`,
returns (nil, nil), and `Order` reads `resp.Ok` through the nil pointer: it panics instead of
returning a status or an error. This happens whenever `BulkOrders` returns (nil, nil). -/
theorem C10_Order_reads_nil_response :
    (executeAction nullEnv modelExchange
        (.OrderAction { Type_ := "order",
                        Orders := [{ Asset := 0, IsBuy := true, LimitPx := "1", Size := "1",
                                     ReduceOnly := false,
                                     OrderType := { Limit := some { Tif := "Gtc" },
                                                    Trigger := none },
                                     Cloid := none }],
                        Grouping := "na",
                        Builder := none })).1 = .ok none
    ∧ (BulkOrders nullEnv modelExchange [limitRequest "BTC" one] none).1 = (none, none)
    ∧ (Order nullEnv modelExchange (limitRequest "BTC" one) none).1 = Run.panic
    ∧ ∀ (env : Env) (e : Exchange) (req : CreateOrderRequest) (builder : Option BuilderInfo),
        (BulkOrders env e [req] builder).1 = (none, none) →
        (Order env e req builder).1 = Run.panic := by
  refine ⟨by decide, by decide, by decide, ?_⟩
  intro env e req builder h
  unfold Order
  cases hb : BulkOrders env e [req] builder with
  | mk res events =>
    rw [hb] at h
    simp only at h
    subst h
    rfl

end Hyperliquid
